import Mathlib

/-!
Verification of the FortiGate edge-ingestion agent
(`edge/fortigate-ingest/bin/`): a shallow embedding of the line parser
(`parser_fgt_v1.py`), the checkpoint store (`checkpoint.py`), the file
readers (`source_file.py`) and the orchestrator/router (`main.py`),
together with theorems settling the specification's claims.

Python strings are modelled as `List Char`; file contents are `List Nat`
(bytes); Python `int` is `Int` (or `Nat` where the source only ever holds
non-negative values).  Unicode extensions of the regex classes `\d`/`\s`
beyond their usual ASCII/whitespace sets are not modelled (no claim
depends on them);`\s` is modelled with the full standard whitespace set.
-/

/-! ## Character utilities -/

/-- Whitespace as matched by Python's `\s` / `str.strip()`:
ASCII whitespace plus the Unicode whitespace code points. -/
def isPySpace (c : Char) : Bool :=
  let n := c.toNat
  n == 32 || (9 ≤ n && n ≤ 13) || (28 ≤ n && n ≤ 31) || n == 0x85 || n == 0xA0 ||
  n == 0x1680 || (0x2000 ≤ n && n ≤ 0x200A) || n == 0x2028 || n == 0x2029 ||
  n == 0x202F || n == 0x205F || n == 0x3000

/-- ASCII decimal digit (model of the regex class `\d`). -/
def isAsciiDigit (c : Char) : Bool :=
  48 ≤ c.toNat && c.toNat ≤ 57

/-- ASCII uppercase letter (regex class `[A-Z]`). -/
def isAsciiUpper (c : Char) : Bool :=
  65 ≤ c.toNat && c.toNat ≤ 90

/-- ASCII lowercase letter (regex class `[a-z]`). -/
def isAsciiLower (c : Char) : Bool :=
  97 ≤ c.toNat && c.toNat ≤ 122

/-- Numeric value of an ASCII digit character. -/
def digitVal (c : Char) : Nat := c.toNat - 48

/-- Decimal digit character for a value below ten. -/
def digitChar (n : Nat) : Char := Char.ofNat (48 + n)

/-- Value of a list of ASCII digit characters read in base ten. -/
def digitsToNat (ds : List Char) : Nat :=
  ds.foldl (fun acc c => 10 * acc + digitVal c) 0

/-- Two-digit zero-padded rendering (Python `%02d`, for values below 100). -/
def pad2 (n : Nat) : List Char := [digitChar (n / 10 % 10), digitChar (n % 10)]

/-- Four-digit zero-padded rendering (Python `%04d`, for values below 10000). -/
def pad4 (n : Nat) : List Char :=
  [digitChar (n / 1000 % 10), digitChar (n / 100 % 10), digitChar (n / 10 % 10),
   digitChar (n % 10)]

/-- Python `raw_line.rstrip("\n")`: remove every trailing newline. -/
def pyRstripNl (l : List Char) : List Char :=
  (l.reverse.dropWhile (· = '\n')).reverse

/-- Python `str.strip()` (both ends, default whitespace set). -/
def pyStrip (l : List Char) : List Char :=
  ((l.dropWhile isPySpace).reverse.dropWhile isPySpace).reverse

/-- Python `str.strip('"')`: remove leading and trailing double quotes. -/
def stripQuotes (l : List Char) : List Char :=
  ((l.dropWhile (· = '"')).reverse.dropWhile (· = '"')).reverse

/-! ## UTF-8 (Python `str.encode("utf-8")` / `bytes.decode("utf-8", errors="replace")`) -/

/-- UTF-8 encoding of one scalar value (every Lean `Char` is a valid scalar). -/
def utf8CharBytes (c : Char) : List Nat :=
  let v := c.toNat
  if v < 0x80 then [v]
  else if v < 0x800 then [0xC0 + v / 64, 0x80 + v % 64]
  else if v < 0x10000 then
    [0xE0 + v / 4096, 0x80 + v / 64 % 64, 0x80 + v % 64]
  else
    [0xF0 + v / 262144, 0x80 + v / 4096 % 64, 0x80 + v / 64 % 64, 0x80 + v % 64]

/-- UTF-8 encoding of a string; `len(s.encode("utf-8"))` is its length.
For strings of Lean `Char`s the `errors="replace"` handler of the source
is never exercised (Lean chars are exactly the Unicode scalar values). -/
def utf8Encode (cs : List Char) : List Nat := cs.flatMap utf8CharBytes

/-- Byte length of the UTF-8 encoding of a string. -/
def utf8Len (cs : List Char) : Nat := (utf8Encode cs).length

/-- Replacement character U+FFFD emitted by `errors="replace"` decoding. -/
def fffd : Char := Char.ofNat 0xFFFD

/-- Continuation byte test (`0x80..0xBF`). -/
def isCont (b : Nat) : Bool := 0x80 ≤ b && b < 0xC0

/-- Validity of the second byte of a three-byte sequence, which depends on
the lead byte (excludes overlong forms and surrogates, as CPython does). -/
def valid3Second (b0 b1 : Nat) : Bool :=
  if b0 == 0xE0 then 0xA0 ≤ b1 && b1 < 0xC0
  else if b0 == 0xED then 0x80 ≤ b1 && b1 < 0xA0
  else isCont b1

/-- Validity of the second byte of a four-byte sequence. -/
def valid4Second (b0 b1 : Nat) : Bool :=
  if b0 == 0xF0 then 0x90 ≤ b1 && b1 < 0xC0
  else if b0 == 0xF4 then 0x80 ≤ b1 && b1 < 0x90
  else isCont b1

/-- UTF-8 decoding with CPython's `errors="replace"` handler: an invalid
start byte yields one U+FFFD consuming one byte; a valid prefix that is
truncated or followed by an invalid byte yields one U+FFFD consuming just
the valid prefix.  The fuel argument only drives the recursion (one unit
per decoded character). -/
def utf8DecodeGo : Nat → List Nat → List Char
  | 0, _ => []
  | _, [] => []
  | fuel + 1, b0 :: rest =>
    if b0 < 0x80 then Char.ofNat b0 :: utf8DecodeGo fuel rest
    else if b0 < 0xC2 then fffd :: utf8DecodeGo fuel rest
    else if b0 < 0xE0 then
      match rest with
      | [] => [fffd]
      | b1 :: r1 =>
        if isCont b1 then
          Char.ofNat ((b0 - 0xC0) * 64 + (b1 - 0x80)) :: utf8DecodeGo fuel r1
        else fffd :: utf8DecodeGo fuel rest
    else if b0 < 0xF0 then
      match rest with
      | [] => [fffd]
      | b1 :: r1 =>
        if valid3Second b0 b1 then
          match r1 with
          | [] => [fffd]
          | b2 :: r2 =>
            if isCont b2 then
              Char.ofNat ((b0 - 0xE0) * 4096 + (b1 - 0x80) * 64 + (b2 - 0x80)) ::
                utf8DecodeGo fuel r2
            else fffd :: utf8DecodeGo fuel r1
        else fffd :: utf8DecodeGo fuel rest
    else if b0 < 0xF5 then
      match rest with
      | [] => [fffd]
      | b1 :: r1 =>
        if valid4Second b0 b1 then
          match r1 with
          | [] => [fffd]
          | b2 :: r2 =>
            if isCont b2 then
              match r2 with
              | [] => [fffd]
              | b3 :: r3 =>
                if isCont b3 then
                  Char.ofNat ((b0 - 0xF0) * 262144 + (b1 - 0x80) * 4096 +
                      (b2 - 0x80) * 64 + (b3 - 0x80)) :: utf8DecodeGo fuel r3
                else fffd :: utf8DecodeGo fuel r2
            else fffd :: utf8DecodeGo fuel r1
        else fffd :: utf8DecodeGo fuel rest
    else fffd :: utf8DecodeGo fuel rest

/-- UTF-8 decoding with CPython's `errors="replace"` handler, as described
for `utf8DecodeGo`.  Every step consumes at least one byte and one unit of
fuel, so the supplied fuel never runs out. -/
def utf8DecodeReplace (bs : List Nat) : List Char := utf8DecodeGo (bs.length + 1) bs

/-! ## Line parser (`parser_fgt_v1.py`) -/

/-- Model of `_has_binary_garbage`: a NUL character, or more than five
control characters (code point below 9, or in 11..31). -/
def has_binary_garbage (s : List Char) : Bool :=
  if (Char.ofNat 0) ∈ s then true
  else 5 < (s.filter (fun c => c.toNat < 9 || (11 ≤ c.toNat && c.toNat < 32))).length

/-- Update of a Python `dict` entry: overwrite in place if the key is
present (insertion order kept), else append. -/
def kvSet (m : List (List Char × List Char)) (k v : List Char) :
    List (List Char × List Char) :=
  match m with
  | [] => [(k, v)]
  | (k', v') :: rest => if k' = k then (k, v) :: rest else (k', v') :: kvSet rest k v

/-- Lookup in the key/value map (Python `dict.get`). -/
def kvGet (m : List (List Char × List Char)) (k : List Char) : Option (List Char) :=
  match m with
  | [] => none
  | (k', v) :: rest => if k' = k then some v else kvGet rest k

/-- Scan of a quoted value, entered after the opening `"`.  A backslash
with at least one following character consumes both and emits only the
escaped character; an unescaped `"` closes the value; a bare trailing
backslash is emitted literally; end of input closes the value. -/
def quotedScan : List Char → List Char × List Char
  | [] => ([], [])
  | '\\' :: c :: rest =>
    let (v, r) := quotedScan rest
    (c :: v, r)
  | '"' :: rest => ([], rest)
  | c :: rest =>
    let (v, r) := quotedScan rest
    (c :: v, r)

theorem quotedScan_length_le (l : List Char) : (quotedScan l).2.length ≤ l.length := by
  induction l using quotedScan.induct
  all_goals simp_all [quotedScan]
  all_goals omega

theorem length_dropWhile_le' (p : Char → Bool) (l : List Char) :
    (l.dropWhile p).length ≤ l.length := by
  induction l with
  | nil => simp [List.dropWhile]
  | cons c r ih =>
    by_cases h : p c
    all_goals simp [List.dropWhile, h]
    all_goals omega

/-- Characters allowed in a key: anything but `=` and space. -/
def kvKeyChar (c : Char) : Bool := c ≠ '=' && c ≠ ' '

/-- Model of the loop of `parse_kv`: skip spaces, read a key up to `=` or
space; stop when the key is empty, the input is exhausted, or the key is
not followed by `=`; otherwise read a quoted or unquoted value and
continue.  The source also skips spaces directly after a value; the skip
at the top of the next iteration makes that redundant here.  The `fuel`
argument only drives the recursion: every iteration consumes at least two
characters of `body`, so the fuel supplied by `parse_kv` never runs out
(`parse_kv_go_fuel_irrelevant`). -/
def parse_kv_go (fuel : Nat) (body : List Char) (out : List (List Char × List Char)) :
    List (List Char × List Char) :=
  match fuel with
  | 0 => out
  | fuel + 1 =>
    match (body.dropWhile (· = ' ')).takeWhile kvKeyChar with
    | [] => out
    | k0 :: ktail =>
      match (body.dropWhile (· = ' ')).dropWhile kvKeyChar with
      | [] => out
      | c :: r3 =>
        if c = '=' then
          match r3 with
          | '"' :: r4 =>
            parse_kv_go fuel (quotedScan r4).2 (kvSet out (k0 :: ktail) (quotedScan r4).1)
          | w =>
            parse_kv_go fuel (w.dropWhile (fun c => c ≠ ' '))
              (kvSet out (k0 :: ktail) (w.takeWhile (fun c => c ≠ ' ')))
        else out

/-- Model of `parse_kv`. -/
def parse_kv (body : List Char) : List (List Char × List Char) :=
  parse_kv_go (body.length + 1) body []

/-! ## Syslog envelope (`SYSLOG_RE`) -/

/-- Parts captured by the envelope regex
`^(?P<mon>[A-Z][a-z]{2})\s+(?P<day>\d{1,2})\s+(?P<time>\d{2}:\d{2}:\d{2})\s+(?P<host>\S+)\s+(?P<body>.*)$`. -/
structure SyslogParts where
  mon : List Char
  day : List Char
  time : List Char
  host : List Char
  body : List Char
deriving DecidableEq, Repr

/-- Model of a `\s+` separator: at least one whitespace character, then
the rest after the maximal whitespace run (the regex around each `\s+` in
the pattern cannot match inside the run, so greedy maximal munch is exact). -/
def wsSkip (l : List Char) : Option (List Char) :=
  match l with
  | [] => none
  | c :: rest => if isPySpace c then some (rest.dropWhile isPySpace) else none

/-- Model of `SYSLOG_RE.match(line)` for a `line` with no trailing
newline (the caller strips trailing newlines first, so `$` means end of
input).  `.*` cannot cross a newline, hence a body containing one fails
the match; all `\s+` separators may contain newlines. -/
def syslogMatch (line : List Char) : Option SyslogParts :=
  match line with
  | c1 :: c2 :: c3 :: r0 =>
    if isAsciiUpper c1 && isAsciiLower c2 && isAsciiLower c3 then
      match wsSkip r0 with
      | none => none
      | some r1 =>
        let ds := r1.takeWhile isAsciiDigit
        if ds.length = 0 ∨ 2 < ds.length then none
        else
          match wsSkip (r1.dropWhile isAsciiDigit) with
          | none => none
          | some r3 =>
            match r3 with
            | h1 :: h2 :: cA :: m1 :: m2 :: cB :: s1 :: s2 :: r4 =>
              if isAsciiDigit h1 && isAsciiDigit h2 && cA = ':' && isAsciiDigit m1 &&
                  isAsciiDigit m2 && cB = ':' && isAsciiDigit s1 && isAsciiDigit s2 then
                match wsSkip r4 with
                | none => none
                | some r5 =>
                  match r5.takeWhile (fun c => !(isPySpace c)) with
                  | [] => none
                  | k0 :: ktail =>
                    match wsSkip (r5.dropWhile (fun c => !(isPySpace c))) with
                    | none => none
                    | some body =>
                      if '\n' ∈ body then none
                      else some ⟨[c1, c2, c3], ds, [h1, h2, cA, m1, m2, cB, s1, s2],
                        k0 :: ktail, body⟩
              else none
            | _ => none
    else none
  | _ => none

/-- Model of the `MONTHS` table lookup. -/
def monthNum : List Char → Option Nat
  | ['J', 'a', 'n'] => some 1
  | ['F', 'e', 'b'] => some 2
  | ['M', 'a', 'r'] => some 3
  | ['A', 'p', 'r'] => some 4
  | ['M', 'a', 'y'] => some 5
  | ['J', 'u', 'n'] => some 6
  | ['J', 'u', 'l'] => some 7
  | ['A', 'u', 'g'] => some 8
  | ['S', 'e', 'p'] => some 9
  | ['O', 'c', 't'] => some 10
  | ['N', 'o', 'v'] => some 11
  | ['D', 'e', 'c'] => some 12
  | _ => none

/-! ## Timestamp resolution (`parse_event_ts`) -/

/-- Leap year rule used by `datetime`. -/
def isLeap (y : Nat) : Bool := y % 4 == 0 && (y % 100 != 0 || y % 400 == 0)

/-- Days in a month as validated by `datetime`. -/
def daysInMonth (y m : Nat) : Nat :=
  if m = 2 then (if isLeap y then 29 else 28)
  else if m = 4 ∨ m = 6 ∨ m = 9 ∨ m = 11 then 30
  else 31

/-- Fixed-offset aware or naive wall-clock value, the part of a Python
`datetime` object this pipeline observes. -/
structure PyDateTime where
  year : Nat
  month : Nat
  day : Nat
  hour : Nat
  minute : Nat
  second : Nat
  tzMinutes : Option Int
deriving DecidableEq, Repr

/-- Range validation performed by the `datetime` constructor. -/
def validYmd (y m d : Nat) : Bool :=
  1 ≤ y && y ≤ 9999 && 1 ≤ m && m ≤ 12 && 1 ≤ d && d ≤ daysInMonth y m

/-- Time-of-day validation performed by the `datetime` constructor. -/
def validHms (h mi s : Nat) : Bool := h < 24 && mi < 60 && s < 60

/-- Model of `datetime.fromisoformat(date + "T" + time)` restricted to the
canonical shapes `YYYY-MM-DD` and `HH:MM:SS` the specification calls
well-formed (further shapes CPython accepts, such as times without
seconds or with fractions, are not modelled; no claim involves them). -/
def fromIso (dateS timeS : List Char) : Option PyDateTime :=
  match dateS, timeS with
  | [y1, y2, y3, y4, e1, m1, m2, e2, d1, d2], [h1, h2, cA, mi1, mi2, cB, s1, s2] =>
    if [y1, y2, y3, y4, m1, m2, d1, d2, h1, h2, mi1, mi2, s1, s2].all isAsciiDigit &&
        e1 = '-' && e2 = '-' && cA = ':' && cB = ':' then
      let y := digitsToNat [y1, y2, y3, y4]
      let m := digitsToNat [m1, m2]
      let d := digitsToNat [d1, d2]
      let h := digitsToNat [h1, h2]
      let mi := digitsToNat [mi1, mi2]
      let s := digitsToNat [s1, s2]
      if validYmd y m d && validHms h mi s then some ⟨y, m, d, h, mi, s, none⟩
      else none
    else none
  | _, _ => none

/-- Offset suffix of `datetime.isoformat()` for a fixed-offset timezone. -/
def renderOffset (mins : Int) : List Char :=
  (if mins < 0 then '-' else '+') ::
    (pad2 (mins.natAbs / 60) ++ ':' :: pad2 (mins.natAbs % 60))

/-- Model of `datetime.isoformat()` (microsecond is always zero here). -/
def isoformat (dt : PyDateTime) : List Char :=
  pad4 dt.year ++ '-' :: pad2 dt.month ++ '-' :: pad2 dt.day ++
    'T' :: pad2 dt.hour ++ ':' :: pad2 dt.minute ++ ':' :: pad2 dt.second ++
    (match dt.tzMinutes with
     | none => []
     | some m => renderOffset m)

/-- Normalized `tz` key: the source computes `tz.strip().strip('"')`,
keeps it when it matches `[+-]\d{4}` and rewrites it to `±HH:MM`; here the
same information is kept as (negative?, hours, minutes).  An absent or
empty (falsy) `tz`, or one failing the pattern, normalizes to `none`. -/
def tzNormOf (kv : List (List Char × List Char)) : Option (Bool × Nat × Nat) :=
  match kvGet kv "tz".data with
  | none => none
  | some tz =>
    if tz = [] then none
    else
      match stripQuotes (pyStrip tz) with
      | [sgn, a, b, c, d] =>
        if (sgn = '+' ∨ sgn = '-') && [a, b, c, d].all isAsciiDigit then
          some (sgn = '-', digitsToNat [a, b], digitsToNat [c, d])
        else none
      | _ => none

/-- Signed offset in minutes passed to `datetime.timezone`. -/
def tzSigned (neg : Bool) (hh mm : Nat) : Int :=
  (if neg then -1 else 1) * (hh * 60 + mm)

/-- Python `s.split(":")` (empty parts kept). -/
def splitColon : List Char → List (List Char)
  | [] => [[]]
  | ':' :: rest => [] :: splitColon rest
  | c :: rest =>
    match splitColon rest with
    | [] => [[c]]
    | p :: ps => (c :: p) :: ps

/-- Model of Python `int(str)` returning `none` where `int` raises:
optional surrounding whitespace, an optional single sign, then one or
more ASCII digits (digit-group underscores are not modelled). -/
def pyInt (l : List Char) : Option Int :=
  match pyStrip l with
  | '+' :: ds => if ds ≠ [] && ds.all isAsciiDigit then some (digitsToNat ds) else none
  | '-' :: ds => if ds ≠ [] && ds.all isAsciiDigit then some (-(digitsToNat ds : Int)) else none
  | ds => if ds ≠ [] && ds.all isAsciiDigit then some (digitsToNat ds) else none

/-- Explicit `date`/`time` branch of `parse_event_ts`: both keys present
and truthy (non-empty), parsed by `fromisoformat`, with the normalized
`tz` applied when `datetime.timezone` accepts the offset (strictly less
than 24 hours in magnitude); `none` both when the branch does not apply
and when it raised, in which case the source falls through. -/
def explicitTsPath (kv : List (List Char × List Char)) : Option (List Char) :=
  match kvGet kv "date".data, kvGet kv "time".data with
  | some ds, some ts =>
    if ds = [] ∨ ts = [] then none
    else
      match fromIso ds ts with
      | none => none
      | some dt =>
        match tzNormOf kv with
        | none => some (isoformat dt)
        | some (neg, hh, mm) =>
          if hh * 60 + mm < 1440 then
            some (isoformat { dt with tzMinutes := some (tzSigned neg hh mm) })
          else none
  | _, _ => none

/-- Fallback branch of `parse_event_ts`: contextual year plus the
envelope month/day/time, validated by the `datetime` constructor, with
the same `tz` handling; an exception anywhere in the branch (including an
out-of-range offset) yields `none`. -/
def fallbackTsPath (kv : List (List Char × List Char)) (default_year : Int)
    (fallback_mon fallback_day : Nat) (fallback_time : List Char) : Option (List Char) :=
  match (splitColon fallback_time).map pyInt with
  | [some hh, some mm, some ss] =>
    if 1 ≤ default_year && default_year ≤ 9999 &&
        validYmd default_year.toNat fallback_mon fallback_day &&
        0 ≤ hh && hh < 24 && 0 ≤ mm && mm < 60 && 0 ≤ ss && ss < 60 then
      let dt : PyDateTime :=
        ⟨default_year.toNat, fallback_mon, fallback_day, hh.toNat, mm.toNat, ss.toNat, none⟩
      match tzNormOf kv with
      | none => some (isoformat dt)
      | some (neg, h, m) =>
        if h * 60 + m < 1440 then
          some (isoformat { dt with tzMinutes := some (tzSigned neg h m) })
        else none
    else none
  | _ => none

/-- Model of `parse_event_ts`: the explicit `date`/`time` path first,
else the envelope fallback, else `none`. -/
def parse_event_ts (kv : List (List Char × List Char)) (default_year : Int)
    (fallback_mon fallback_day : Nat) (fallback_time : List Char) : Option (List Char) :=
  match explicitTsPath kv with
  | some s => some s
  | none => fallbackTsPath kv default_year fallback_mon fallback_day fallback_time

/-! ## Event assembly (`parse_fortigate_line`) -/

/-- Dead-letter record produced by the parser (reason and raw line; the
ingest timestamp and source position are stamped later by the router). -/
structure DlqRecord where
  reason : String
  raw : List Char
deriving DecidableEq, Repr

/-- Typed event record assembled by the parser.  The `event_id` content
digest (SHA-256 of the raw line, truncated) is not modelled: no claim
depends on it and the raw line it is computed from is carried verbatim. -/
structure Event where
  schema_version : Nat
  host : List Char
  event_ts : Option (List Char)
  type : Option (List Char)
  subtype : Option (List Char)
  level : Option (List Char)
  devname : Option (List Char)
  devid : Option (List Char)
  vd : Option (List Char)
  action : Option (List Char)
  policyid : Option Int
  proto : Option Int
  service : Option (List Char)
  srcip : Option (List Char)
  srcport : Option Int
  srcintf : Option (List Char)
  srcintfrole : Option (List Char)
  dstip : Option (List Char)
  dstport : Option Int
  dstintf : Option (List Char)
  dstintfrole : Option (List Char)
  sentbyte : Option Int
  rcvdbyte : Option Int
  sentpkt : Option Int
  rcvdpkt : Option Int
  raw : List Char
  parse_status : String
deriving DecidableEq, Repr

/-- Model of `_to_int`: `None` stays `None`, otherwise Python `int`
conversion with failure mapped to `None`. -/
def to_int (x : Option (List Char)) : Option Int :=
  match x with
  | none => none
  | some s => pyInt s

/-- Model of `parse_fortigate_line`: returns the `(event, dlq)` pair.
The source's defensive `kv_parse_exception` branch is unreachable because
`parse_kv` is total, exactly as the specification notes. -/
def parse_fortigate_line (raw_line : List Char) (now_year : Int) :
    Option Event × Option DlqRecord :=
  let line := pyRstripNl raw_line
  if line = [] then (none, some ⟨"empty_line", raw_line⟩)
  else if has_binary_garbage line then (none, some ⟨"non_text_or_binary", raw_line⟩)
  else
    match syslogMatch line with
    | none => (none, some ⟨"syslog_header_parse_fail", raw_line⟩)
    | some p =>
      match monthNum p.mon with
      | none => (none, some ⟨"invalid_month", raw_line⟩)
      | some mon_i =>
        let kv := parse_kv p.body
        let event_ts := parse_event_ts kv now_year mon_i (digitsToNat p.day) p.time
        let tyv := kvGet kv "type".data
        let stv := kvGet kv "subtype".data
        let acv := kvGet kv "action".data
        let ev : Event :=
          { schema_version := 1
            host := p.host
            event_ts := event_ts
            type := tyv
            subtype := stv
            level := kvGet kv "level".data
            devname := kvGet kv "devname".data
            devid := kvGet kv "devid".data
            vd := kvGet kv "vd".data
            action := acv
            policyid := to_int (kvGet kv "policyid".data)
            proto := to_int (kvGet kv "proto".data)
            service := kvGet kv "service".data
            srcip := kvGet kv "srcip".data
            srcport := to_int (kvGet kv "srcport".data)
            srcintf := kvGet kv "srcintf".data
            srcintfrole := kvGet kv "srcintfrole".data
            dstip := kvGet kv "dstip".data
            dstport := to_int (kvGet kv "dstport".data)
            dstintf := kvGet kv "dstintf".data
            dstintfrole := kvGet kv "dstintfrole".data
            sentbyte := to_int (kvGet kv "sentbyte".data)
            rcvdbyte := to_int (kvGet kv "rcvdbyte".data)
            sentpkt := to_int (kvGet kv "sentpkt".data)
            rcvdpkt := to_int (kvGet kv "rcvdpkt".data)
            raw := raw_line
            parse_status :=
              if tyv = none ∨ stv = none ∨ acv = none then "partial" else "ok" }
        (some ev, none)

/-! ## Checkpoint store (`checkpoint.py`) -/

/-- Progress pointer into the active file (`ck["active"]`). -/
structure ActivePointer where
  path : String
  inode : Option Int
  offset : Int
  last_event_ts_seen : Option (List Char)
deriving DecidableEq, Repr

/-- Monotonic process-wide totals (`ck["counters"]`). -/
structure Counters where
  lines_in_total : Int
  bytes_in_total : Int
  events_out_total : Int
  dlq_out_total : Int
  parse_fail_total : Int
  write_fail_total : Int
  checkpoint_fail_total : Int
deriving DecidableEq, Repr

/-- Entry of the completed-file ledger. -/
structure CompletedRecord where
  key : String
  path : String
  inode : Int
  size : Int
  mtime : Int
  completed_at : Int
deriving DecidableEq, Repr

/-- The whole persisted state (`ck`). -/
structure CheckpointState where
  schema_version : Int
  active : ActivePointer
  completed : List CompletedRecord
  counters : Counters
  updated_at : Int
deriving DecidableEq, Repr

/-- JSON values as far as this pipeline's documents need them. -/
inductive Json where
  | null : Json
  | num : Int → Json
  | str : String → Json
  | arr : List Json → Json
  | obj : List (String × Json) → Json
deriving Repr

/-- Model of `completed_key`: the dedup key `path|inode|size|mtime`. -/
def completed_key (path : String) (inode size mtime : Int) : String :=
  path ++ "|" ++ toString inode ++ "|" ++ toString size ++ "|" ++ toString mtime

/-- Model of `is_completed`: scan of the ledger for the dedup key. -/
def is_completed (ck : CheckpointState) (path : String) (inode size mtime : Int) : Bool :=
  ck.completed.any (fun item => item.key = completed_key path inode size mtime)

/-- Model of `mark_completed` (the `now` argument stands for
`int(time.time())`): append one record, then truncate the ledger to its
most recent 5000 entries. -/
def mark_completed (ck : CheckpointState) (path : String) (inode size mtime now : Int) :
    CheckpointState :=
  let l := ck.completed ++ [⟨completed_key path inode size mtime, path, inode, size, mtime, now⟩]
  { ck with completed := if 5000 < l.length then l.drop (l.length - 5000) else l }

/-- Default state returned by `load_checkpoint` when nothing is persisted. -/
def default_checkpoint (now : Int) : CheckpointState :=
  { schema_version := 1
    active := { path := "/data/fortigate/fortigate.log", inode := none, offset := 0,
                last_event_ts_seen := none }
    completed := []
    counters := ⟨0, 0, 0, 0, 0, 0, 0⟩
    updated_at := now }

/-! Serialization: `save_checkpoint` dumps the state as one JSON document
written atomically; `load_checkpoint` reads it back.  The document is
modelled at the JSON-value level (`json.dumps`/`json.load` round-tripping
of the value itself is the standard library's contract); the typed
decoders below express which fields the pipeline reads back. -/

def activeToJson (a : ActivePointer) : Json :=
  .obj [("path", .str a.path),
        ("inode", match a.inode with | none => .null | some i => .num i),
        ("offset", .num a.offset),
        ("last_event_ts_seen",
          match a.last_event_ts_seen with | none => .null | some s => .str (String.mk s))]

def countersToJson (c : Counters) : Json :=
  .obj [("lines_in_total", .num c.lines_in_total),
        ("bytes_in_total", .num c.bytes_in_total),
        ("events_out_total", .num c.events_out_total),
        ("dlq_out_total", .num c.dlq_out_total),
        ("parse_fail_total", .num c.parse_fail_total),
        ("write_fail_total", .num c.write_fail_total),
        ("checkpoint_fail_total", .num c.checkpoint_fail_total)]

def recToJson (r : CompletedRecord) : Json :=
  .obj [("key", .str r.key), ("path", .str r.path), ("inode", .num r.inode),
        ("size", .num r.size), ("mtime", .num r.mtime), ("completed_at", .num r.completed_at)]

def checkpointToJson (ck : CheckpointState) : Json :=
  .obj [("schema_version", .num ck.schema_version),
        ("active", activeToJson ck.active),
        ("completed", .arr (ck.completed.map recToJson)),
        ("counters", countersToJson ck.counters),
        ("updated_at", .num ck.updated_at)]

/-- Lookup of an object field (Python dict access on the loaded document). -/
def lookupJ : List (String × Json) → String → Option Json
  | [], _ => none
  | (k', v) :: rest, k => if k' = k then some v else lookupJ rest k

def jget (j : Json) (k : String) : Option Json :=
  match j with
  | .obj fields => lookupJ fields k
  | _ => none

def asInt : Option Json → Option Int
  | some (.num n) => some n
  | _ => none

def asStr : Option Json → Option String
  | some (.str s) => some s
  | _ => none

def asOptInt : Option Json → Option (Option Int)
  | some .null => some none
  | some (.num n) => some (some n)
  | _ => none

def asOptChars : Option Json → Option (Option (List Char))
  | some .null => some none
  | some (.str s) => some (some s.data)
  | _ => none

def activeOfJson (j : Json) : Option ActivePointer :=
  match asStr (jget j "path"), asOptInt (jget j "inode"), asInt (jget j "offset"),
      asOptChars (jget j "last_event_ts_seen") with
  | some p, some i, some o, some l => some ⟨p, i, o, l⟩
  | _, _, _, _ => none

def countersOfJson (j : Json) : Option Counters :=
  match asInt (jget j "lines_in_total"), asInt (jget j "bytes_in_total"),
      asInt (jget j "events_out_total"), asInt (jget j "dlq_out_total"),
      asInt (jget j "parse_fail_total"), asInt (jget j "write_fail_total"),
      asInt (jget j "checkpoint_fail_total") with
  | some a, some b, some c, some d, some e, some f, some g => some ⟨a, b, c, d, e, f, g⟩
  | _, _, _, _, _, _, _ => none

def recOfJson (j : Json) : Option CompletedRecord :=
  match asStr (jget j "key"), asStr (jget j "path"), asInt (jget j "inode"),
      asInt (jget j "size"), asInt (jget j "mtime"), asInt (jget j "completed_at") with
  | some k, some p, some i, some s, some m, some c => some ⟨k, p, i, s, m, c⟩
  | _, _, _, _, _, _ => none

def recsOfJson : List Json → Option (List CompletedRecord)
  | [] => some []
  | j :: rest =>
    match recOfJson j, recsOfJson rest with
    | some r, some rs => some (r :: rs)
    | _, _ => none

def checkpointOfJson (j : Json) : Option CheckpointState :=
  match asInt (jget j "schema_version"),
      (jget j "active").bind activeOfJson,
      jget j "completed",
      (jget j "counters").bind countersOfJson,
      asInt (jget j "updated_at") with
  | some sv, some act, some (.arr comps), some cnt, some upd =>
    match recsOfJson comps with
    | some cs => some ⟨sv, act, cs, cnt, upd⟩
    | none => none
  | _, _, _, _, _ => none

/-- Model of `save_checkpoint`: set `updated_at` to the current time (the
`now` argument), then write the serialized state atomically; the result
is the mutated in-memory state and the stored document. -/
def save_checkpoint (ck : CheckpointState) (now : Int) : CheckpointState × Json :=
  let ck' := { ck with updated_at := now }
  (ck', checkpointToJson ck')

/-- Model of `load_checkpoint`: the default state when no document is
persisted, else the stored document decoded into the typed state. -/
def load_checkpoint (stored : Option Json) (now : Int) : Option CheckpointState :=
  match stored with
  | none => some (default_checkpoint now)
  | some j => checkpointOfJson j

/-! ## File readers (`source_file.py`) -/

/-- Universal-newline translation performed by Python text mode
(`\r\n` and bare `\r` become `\n`), applied after decoding. -/
def translateNL : List Char → List Char
  | [] => []
  | '\r' :: '\n' :: rest => '\n' :: translateNL rest
  | '\r' :: rest => '\n' :: translateNL rest
  | c :: rest => c :: translateNL rest

/-- Line iteration of a Python text file: split after each `'\n'`,
keeping the terminator; a trailing unterminated line is yielded too. -/
def pyLines : List Char → List (List Char)
  | [] => []
  | '\n' :: rest => ['\n'] :: pyLines rest
  | c :: rest =>
    match pyLines rest with
    | [] => [[c]]
    | l :: ls => (c :: l) :: ls

/-- Byte-level split of a file after each `0x0A`, keeping the terminator
(the quantity whose prefix sums are the true on-disk line offsets). -/
def byteLines : List Nat → List (List Nat)
  | [] => []
  | 10 :: rest => [10] :: byteLines rest
  | b :: rest =>
    match byteLines rest with
    | [] => [[b]]
    | l :: ls => (b :: l) :: ls

/-- Offsets as `read_whole_file_lines` computes them for plain files: the
first line at 0, then the accumulated re-encoded length of each line. -/
def withOffsets : List (List Char) → Nat → List (List Char × Option Nat)
  | [], _ => []
  | l :: ls, off => (l, some off) :: withOffsets ls (off + utf8Len l)

/-- Model of `read_whole_file_lines`: decode the content (for `.gz` paths
`content` stands for the already-decompressed bytes, decompression being
external), iterate lines, and attach offsets — re-encoded running offsets
for plain files, `none` (unknown) for compressed ones. -/
def read_whole_file_lines (isGz : Bool) (content : List Nat) :
    List (List Char × Option Nat) :=
  let ls := pyLines (translateNL (utf8DecodeReplace content))
  if isGz then ls.map (fun l => (l, (none : Option Nat)))
  else withOffsets ls 0

/-- Complete (newline-terminated) byte lines of a buffer; an unterminated
tail stays in the buffer and is not yielded (`follow_active_binary`). -/
def completeByteLines : List Nat → List (List Nat)
  | [] => []
  | 10 :: rest => [10] :: completeByteLines rest
  | b :: rest =>
    match completeByteLines rest with
    | [] => []
    | l :: ls => (b :: l) :: ls

/-- Decoded lines of `follow_active_binary` with the updated byte offset
after each line (offsets counted on the raw bytes, before decoding). -/
def followAcc : List (List Nat) → Nat → List (List Char × Nat)
  | [], _ => []
  | lb :: rest, off => (utf8DecodeReplace lb, off + lb.length) :: followAcc rest (off + lb.length)

/-- Lines yielded by `follow_active_binary(offset)` over the currently
available `content` of the active file (the generator then blocks
polling; the orchestrator's time budget bounds each slice). -/
def follow_active_lines (content : List Nat) (offset : Nat) : List (List Char × Nat) :=
  followAcc (completeByteLines (content.drop offset)) offset

/-! ## Router and orchestrator (`main.py`) -/

/-- Fixed active-file path. -/
def ACTIVE_PATH : String := "/data/fortigate/fortigate.log"

/-- Source position stamped on routed records (`{path, inode, offset}`). -/
structure Source where
  path : String
  inode : Option Int
  offset : Option Int
deriving DecidableEq, Repr

/-- Record of one routing decision: which raw line was sent where.  The
decision is logged whether or not the sink write succeeds (a failed write
drops the record and only bumps the write-fail counter). -/
structure Routed where
  src : Source
  raw : List Char
  isEvent : Bool
  reason : Option String
deriving DecidableEq, Repr

def bumpDlqCounters (c : Counters) : Counters :=
  { c with dlq_out_total := c.dlq_out_total + 1, parse_fail_total := c.parse_fail_total + 1 }

def bumpWriteFail (c : Counters) : Counters :=
  { c with write_fail_total := c.write_fail_total + 1 }

/-- Model of `_write_dlq`: on sink success bump dlq-out and parse-fail,
on sink failure bump write-fail only (`ok` is the sink outcome). -/
def write_dlq (ck : CheckpointState) (ok : Bool) : CheckpointState :=
  if ok then { ck with counters := bumpDlqCounters ck.counters }
  else { ck with counters := bumpWriteFail ck.counters }

/-- Model of `_write_event`: on sink success bump events-out and record a
truthy (non-empty) resolved `event_ts` as last seen; on failure bump
write-fail only. -/
def write_event (ck : CheckpointState) (ev : Event) (ok : Bool) : CheckpointState :=
  if ok then
    let c := { ck.counters with events_out_total := ck.counters.events_out_total + 1 }
    match ev.event_ts with
    | some ts =>
      if ts ≠ [] then
        { ck with counters := c, active := { ck.active with last_event_ts_seen := some ts } }
      else { ck with counters := c }
    | none => { ck with counters := c }
  else { ck with counters := bumpWriteFail ck.counters }

/-- Per-line step shared by both loops of `main.py`: count the line and
its encoded bytes, parse, and route to the event or DLQ sink. -/
def routeLine (ck : CheckpointState) (raw : List Char) (year : Int) (src : Source)
    (ok : Bool) : CheckpointState × Routed :=
  let ck1 := { ck with counters :=
    { ck.counters with lines_in_total := ck.counters.lines_in_total + 1,
                       bytes_in_total := ck.counters.bytes_in_total + utf8Len raw } }
  match parse_fortigate_line raw year with
  | (some ev, _) => (write_event ck1 ev ok, ⟨src, raw, true, none⟩)
  | (none, dlq) =>
    let reason := match dlq with
      | some d => d.reason
      | none => "parse_fail"
    (write_dlq ck1 ok, ⟨src, raw, false, some reason⟩)

/-- Identity and content of one rotated file (only files that survive
`stat_file` are listed; a vanished file is skipped upstream). -/
structure RotFile where
  path : String
  inode : Int
  size : Int
  mtime : Int
  isGz : Bool
  content : List Nat
deriving DecidableEq, Repr

/-- Routing loop over the lines of one rotated file; `oks` is the
per-write sink outcome oracle. -/
def routeFold (ck : CheckpointState) (items : List (List Char × Option Nat))
    (path : String) (inode : Option Int) (year : Int) (oks : List Bool) :
    CheckpointState × List Routed :=
  match items with
  | [] => (ck, [])
  | (raw, off) :: rest =>
    let pr := routeLine ck raw year ⟨path, inode, off.map Int.ofNat⟩ (oks.headD true)
    let pr2 := routeFold pr.1 rest path inode year oks.tail
    (pr2.1, pr.2 :: pr2.2)

/-- Model of the body of `process_rotated_files` for one file: skip it
when its identity is in the completed ledger, else route every line and
mark it completed. -/
def process_rotated_file (ck : CheckpointState) (f : RotFile) (year : Int)
    (oks : List Bool) (now : Int) : CheckpointState × List Routed :=
  if is_completed ck f.path f.inode f.size f.mtime then (ck, [])
  else
    let pr := routeFold ck (read_whole_file_lines f.isGz f.content) f.path (some f.inode)
      year oks
    (mark_completed pr.1 f.path f.inode f.size f.mtime now, pr.2)

/-- Model of `process_rotated_files` over the catalog's listing. -/
def process_rotated_files (ck : CheckpointState) (files : List RotFile) (year : Int)
    (oks : List Bool) (now : Int) : CheckpointState × List Routed :=
  match files with
  | [] => (ck, [])
  | f :: fs =>
    let pr := process_rotated_file ck f year oks now
    let pr2 := process_rotated_files pr.1 fs year (oks.drop pr.2.length) now
    (pr2.1, pr.2 ++ pr2.2)

/-- Mid-loop rotation test of `process_active_tail`: the freshly stat-ed
inode is present and differs from the stored one. -/
def inodeChanged (chk stored : Option Int) : Bool :=
  match chk with
  | none => false
  | some n => !(some n == stored)

/-- Entry logic of `process_active_tail`: adopt the on-disk inode with
offset 0 when none is stored yet or when the stored one differs. -/
def adjustPointer (ck : CheckpointState) (cur : Int) : CheckpointState :=
  if ck.active.inode = none then
    { ck with active := { ck.active with inode := some cur, offset := 0 } }
  else if ck.active.inode ≠ some cur then
    { ck with active := { ck.active with inode := some cur, offset := 0 } }
  else ck

/-- Loop of `process_active_tail`: per line, re-stat the active path
(`checks` oracle; `none` = file missing); on a changed identity reset the
pointer to the new inode at offset 0 and stop; otherwise route the line,
advance the stored offset, and stop when the time budget (`fuel`, checked
after each line as in the source) runs out. -/
def tailLoop : CheckpointState → List (List Char × Nat) → List (Option Int) →
    List Bool → Nat → Int → CheckpointState × List Routed
  | ck, [], _, _, _, _ => (ck, [])
  | ck, (line, noff) :: rest, checks, oks, fuel, year =>
    let chk := checks.headD none
    if inodeChanged chk ck.active.inode then
      ({ ck with active := { ck.active with inode := chk, offset := 0 } }, [])
    else
      let pr := routeLine ck line year ⟨ACTIVE_PATH, ck.active.inode, some (noff : Int)⟩
        (oks.headD true)
      let ck2 := { pr.1 with active := { pr.1.active with offset := (noff : Int) } }
      if fuel ≤ 1 then (ck2, [pr.2])
      else
        let pr2 := tailLoop ck2 rest checks.tail oks.tail (fuel - 1) year
        (pr2.1, pr.2 :: pr2.2)

/-- Model of `process_active_tail`: nothing when the active path is
missing; else adjust the pointer against the on-disk inode and follow the
available content from the stored offset. -/
def process_active_tail (ck : CheckpointState) (curInode : Option Int)
    (content : List Nat) (checks : List (Option Int)) (oks : List Bool) (fuel : Nat)
    (year : Int) : CheckpointState × List Routed :=
  match curInode with
  | none => (ck, [])
  | some cur =>
    let ck1 := adjustPointer ck cur
    tailLoop ck1 (follow_active_lines content ck1.active.offset.toNat) checks oks fuel year

def bumpCheckpointFail (c : Counters) : Counters :=
  { c with checkpoint_fail_total := c.checkpoint_fail_total + 1 }

/-- Model of the checkpoint-flush step of `main`: `save_checkpoint`
mutates `updated_at` first, so a failed write (`ok = false`) still leaves
the new `updated_at` and bumps the checkpoint-fail counter. -/
def flush_checkpoint (ck : CheckpointState) (ok : Bool) (now : Int) :
    CheckpointState × Option Json :=
  let ck1 := { ck with updated_at := now }
  if ok then (ck1, some (checkpointToJson ck1))
  else ({ ck1 with counters := bumpCheckpointFail ck1.counters }, none)

/-- Modelled from the spec: `metrics.py` (`MetricsWindow.build_metrics`)
is not part of the repository; sections 2 and 6 of the specification
describe it as an opaque component consuming the checkpoint state and
counters and producing one summary record per interval, so building the
record does not mutate the state, and a failed append to the metrics sink
is counted as a write failure. -/
def emit_metrics (ck : CheckpointState) (ok : Bool) : CheckpointState :=
  if ok then ck else { ck with counters := bumpWriteFail ck.counters }

/-! ## Theorems -/

/-- C4: `parse_kv` on the body `a=1 b="x\"y" c=` returns exactly the
mapping a ↦ "1", b ↦ x"y, c ↦ "" — inside the quoted value the backslash
consumes itself and the following quote and emits only the quote, the
unescaped quote ends the value, and the empty unquoted value of `c=` at
end of input is the empty string. -/
theorem c4_parse_kv_quoting :
    parse_kv "a=1 b=\"x\\\"y\" c=".data =
      [("a".data, "1".data), ("b".data, "x\"y".data), ("c".data, "".data)] := by
  decide

/-- Record appended by one `mark_completed` call. -/
def markRec (path : String) (inode size mtime now : Int) : CompletedRecord :=
  ⟨completed_key path inode size mtime, path, inode, size, mtime, now⟩

/-- Arguments of one `mark_completed` call. -/
structure MarkArgs where
  path : String
  inode : Int
  size : Int
  mtime : Int
  now : Int
deriving DecidableEq, Repr

def MarkArgs.toRecord (a : MarkArgs) : CompletedRecord :=
  markRec a.path a.inode a.size a.mtime a.now

/-- Sequence of `mark_completed` calls. -/
def markAll (ck : CheckpointState) (args : List MarkArgs) : CheckpointState :=
  args.foldl (fun s a => mark_completed s a.path a.inode a.size a.mtime a.now) ck

theorem mark_completed_completed_eq (ck : CheckpointState) (p : String)
    (i s m n : Int) :
    (mark_completed ck p i s m n).completed =
      ck.completed.drop (ck.completed.length + 1 - 5000) ++ [markRec p i s m n] := by
  unfold mark_completed markRec
  by_cases h : 5000 <
      (ck.completed ++ [(⟨completed_key p i s m, p, i, s, m, n⟩ : CompletedRecord)]).length
  · simp only [if_pos h]
    rw [List.length_append] at h ⊢
    simp only [List.length_singleton] at h ⊢
    have hle : ck.completed.length + 1 - 5000 ≤ ck.completed.length := by omega
    rw [List.drop_append_of_le_length hle]
  · simp only [if_neg h]
    rw [List.length_append] at h
    simp only [List.length_singleton] at h
    have hz : ck.completed.length + 1 - 5000 = 0 := by omega
    rw [hz, List.drop_zero]

theorem mark_completed_length (ck : CheckpointState) (p : String) (i s m n : Int) :
    (mark_completed ck p i s m n).completed.length =
      min (ck.completed.length + 1) 5000 := by
  rw [mark_completed_completed_eq, List.length_append, List.length_drop]
  simp only [List.length_singleton]
  omega

theorem mark_completed_counters (ck : CheckpointState) (p : String) (i s m n : Int) :
    (mark_completed ck p i s m n).counters = ck.counters := rfl

theorem mark_completed_active (ck : CheckpointState) (p : String) (i s m n : Int) :
    (mark_completed ck p i s m n).active = ck.active := rfl

set_option maxRecDepth 4000 in
theorem markAll_completed (args : List MarkArgs) (ck : CheckpointState)
    (h : ck.completed.length ≤ 5000) :
    (markAll ck args).completed =
      (ck.completed ++ args.map MarkArgs.toRecord).drop
        (ck.completed.length + args.length - 5000) := by
  induction args generalizing ck with
  | nil =>
    simp only [markAll, List.foldl_nil, List.map_nil, List.append_nil, List.length_nil,
      Nat.add_zero]
    have hz : ck.completed.length - 5000 = 0 := by omega
    rw [hz, List.drop_zero]
  | cons a args ih =>
    have hstep : markAll ck (a :: args) =
        markAll (mark_completed ck a.path a.inode a.size a.mtime a.now) args := rfl
    have hlen := mark_completed_length ck a.path a.inode a.size a.mtime a.now
    have hle : (mark_completed ck a.path a.inode a.size a.mtime a.now).completed.length
        ≤ 5000 := by omega
    have hle2 : ck.completed.length + 1 - 5000 ≤ ck.completed.length := by omega
    rw [hstep, ih _ hle, mark_completed_completed_eq]
    simp only [List.length_append, List.length_drop, List.length_singleton]
    rw [List.append_assoc, ← List.drop_append_of_le_length hle2, List.drop_drop,
      List.singleton_append]
    rw [List.map_cons]
    simp only [MarkArgs.toRecord]
    have hidx : ck.completed.length + 1 - 5000 +
        (ck.completed.length - (ck.completed.length + 1 - 5000) + 1 + args.length - 5000) =
        ck.completed.length + (a :: args).length - 5000 := by
      simp only [List.length_cons]
      omega
    rw [hidx]

theorem markAll_length_le (args : List MarkArgs) (ck : CheckpointState)
    (h : ck.completed.length ≤ 5000) :
    (markAll ck args).completed.length ≤ 5000 := by
  rw [markAll_completed args ck h, List.length_drop, List.length_append,
    List.length_map]
  omega

/-- C8: starting from an empty ledger, 5001 `mark_completed` calls leave
exactly the 5000 most recently appended records (the first insertion,
being the oldest, is evicted), and after any number of calls from an
empty ledger its length never exceeds 5000. -/
theorem c8_ledger_cap (ck : CheckpointState) (args : List MarkArgs)
    (hempty : ck.completed = []) (hlen : args.length = 5001) :
    (markAll ck args).completed = (args.map MarkArgs.toRecord).drop 1 ∧
    ∀ args' : List MarkArgs, (markAll ck args').completed.length ≤ 5000 := by
  constructor
  · rw [markAll_completed args ck (by rw [hempty]; simp), hempty]
    simp [hlen]
  · intro args'
    exact markAll_length_le args' ck (by rw [hempty]; simp)

/-- C8 witness: the cap theorem applied to 5001 identical concrete calls. -/
theorem c8_ledger_cap_witness :
    (markAll (default_checkpoint 0) (List.replicate 5001 ⟨"/data/f", 1, 2, 3, 4⟩)).completed
        = ((List.replicate 5001 (⟨"/data/f", 1, 2, 3, 4⟩ : MarkArgs)).map
            MarkArgs.toRecord).drop 1 ∧
    ∀ args' : List MarkArgs,
      (markAll (default_checkpoint 0) args').completed.length ≤ 5000 :=
  c8_ledger_cap (default_checkpoint 0) (List.replicate 5001 ⟨"/data/f", 1, 2, 3, 4⟩)
    rfl (by rw [List.length_replicate])

theorem is_completed_iff (ck : CheckpointState) (p : String) (i s m : Int) :
    is_completed ck p i s m = true ↔
      ∃ r ∈ ck.completed, r.key = completed_key p i s m := by
  simp [is_completed, List.any_eq_true]

/-- C10: `mark_completed` never deduplicates — every call grows the
ledger by exactly one record (up to the 5000 cap) even when the same
dedup key is already present, so k same-identity calls occupy k slots;
`is_completed` is true exactly when some ledger record carries the key,
and in particular marking the same identity twice and then querying
returns true. -/
theorem c10_mark_no_dedup (ck : CheckpointState) (p : String) (i s m n1 n2 : Int) :
    ((mark_completed ck p i s m n1).completed.length =
        min (ck.completed.length + 1) 5000) ∧
    (∀ (ck' : CheckpointState) (p' : String) (i' s' m' : Int),
        is_completed ck' p' i' s' m' = true ↔
          ∃ r ∈ ck'.completed, r.key = completed_key p' i' s' m') ∧
    is_completed (mark_completed (mark_completed ck p i s m n1) p i s m n2)
        p i s m = true := by
  refine ⟨mark_completed_length ck p i s m n1, is_completed_iff, ?_⟩
  rw [is_completed_iff]
  refine ⟨markRec p i s m n2, ?_, rfl⟩
  rw [mark_completed_completed_eq]
  simp

/-! ### Counter monotonicity (C9) -/

/-- Pointwise order on the counter record. -/
def countersLE (a b : Counters) : Prop :=
  a.lines_in_total ≤ b.lines_in_total ∧
  a.bytes_in_total ≤ b.bytes_in_total ∧
  a.events_out_total ≤ b.events_out_total ∧
  a.dlq_out_total ≤ b.dlq_out_total ∧
  a.parse_fail_total ≤ b.parse_fail_total ∧
  a.write_fail_total ≤ b.write_fail_total ∧
  a.checkpoint_fail_total ≤ b.checkpoint_fail_total

theorem countersLE_refl (a : Counters) : countersLE a a := by
  unfold countersLE
  omega

theorem countersLE_trans {a b c : Counters} (h1 : countersLE a b)
    (h2 : countersLE b c) : countersLE a c := by
  unfold countersLE at h1 h2 ⊢
  omega

theorem write_event_mono (ck : CheckpointState) (ev : Event) (ok : Bool) :
    countersLE ck.counters (write_event ck ev ok).counters := by
  unfold write_event bumpWriteFail
  repeat' split
  all_goals unfold countersLE
  all_goals simp

theorem write_dlq_mono (ck : CheckpointState) (ok : Bool) :
    countersLE ck.counters (write_dlq ck ok).counters := by
  unfold write_dlq bumpDlqCounters bumpWriteFail
  repeat' split
  all_goals unfold countersLE
  all_goals simp

theorem counters_step_mono (c : Counters) (n : Nat) :
    countersLE c { c with lines_in_total := c.lines_in_total + 1,
                          bytes_in_total := c.bytes_in_total + (n : Int) } := by
  unfold countersLE
  simp

theorem routeLine_mono (ck : CheckpointState) (raw : List Char) (year : Int)
    (src : Source) (ok : Bool) :
    countersLE ck.counters (routeLine ck raw year src ok).1.counters := by
  unfold routeLine
  dsimp only
  split
  · exact countersLE_trans (counters_step_mono ck.counters (utf8Len raw))
      (write_event_mono _ _ _)
  · exact countersLE_trans (counters_step_mono ck.counters (utf8Len raw))
      (write_dlq_mono _ _)

theorem routeFold_mono (items : List (List Char × Option Nat)) (ck : CheckpointState)
    (path : String) (inode : Option Int) (year : Int) (oks : List Bool) :
    countersLE ck.counters (routeFold ck items path inode year oks).1.counters := by
  induction items generalizing ck oks with
  | nil => exact countersLE_refl _
  | cons it rest ih =>
    obtain ⟨raw, off⟩ := it
    exact countersLE_trans (routeLine_mono ck raw year _ (oks.headD true)) (ih _ _)

theorem process_rotated_file_mono (ck : CheckpointState) (f : RotFile) (year : Int)
    (oks : List Bool) (now : Int) :
    countersLE ck.counters (process_rotated_file ck f year oks now).1.counters := by
  unfold process_rotated_file
  split
  · exact countersLE_refl _
  · rw [mark_completed_counters]
    exact routeFold_mono _ _ _ _ _ _

theorem process_rotated_files_mono (files : List RotFile) (ck : CheckpointState)
    (year : Int) (oks : List Bool) (now : Int) :
    countersLE ck.counters (process_rotated_files ck files year oks now).1.counters := by
  induction files generalizing ck oks with
  | nil => exact countersLE_refl _
  | cons f fs ih =>
    exact countersLE_trans (process_rotated_file_mono ck f year oks now) (ih _ _)

theorem tailLoop_mono (items : List (List Char × Nat)) (ck : CheckpointState)
    (checks : List (Option Int)) (oks : List Bool) (fuel : Nat) (year : Int) :
    countersLE ck.counters (tailLoop ck items checks oks fuel year).1.counters := by
  induction items generalizing ck checks oks fuel with
  | nil => exact countersLE_refl _
  | cons it rest ih =>
    obtain ⟨line, noff⟩ := it
    show countersLE ck.counters (tailLoop ck ((line, noff) :: rest) checks oks fuel year).1.counters
    unfold tailLoop
    dsimp only
    split
    · exact countersLE_refl _
    · split
      · exact routeLine_mono ck line year _ (oks.headD true)
      · exact countersLE_trans (routeLine_mono ck line year _ (oks.headD true))
          (ih _ _ _ _)

theorem adjustPointer_counters (ck : CheckpointState) (cur : Int) :
    (adjustPointer ck cur).counters = ck.counters := by
  unfold adjustPointer
  repeat' split
  all_goals rfl

theorem process_active_tail_mono (ck : CheckpointState) (curInode : Option Int)
    (content : List Nat) (checks : List (Option Int)) (oks : List Bool) (fuel : Nat)
    (year : Int) :
    countersLE ck.counters
      (process_active_tail ck curInode content checks oks fuel year).1.counters := by
  unfold process_active_tail
  split
  · exact countersLE_refl _
  · rename_i cur
    have h := tailLoop_mono (follow_active_lines content
      (adjustPointer ck cur).active.offset.toNat) (adjustPointer ck cur) checks oks fuel year
    rw [adjustPointer_counters] at h
    exact h

theorem flush_checkpoint_mono (ck : CheckpointState) (ok : Bool) (now : Int) :
    countersLE ck.counters (flush_checkpoint ck ok now).1.counters := by
  unfold flush_checkpoint bumpCheckpointFail
  split
  all_goals unfold countersLE
  all_goals simp

theorem emit_metrics_mono (ck : CheckpointState) (ok : Bool) :
    countersLE ck.counters (emit_metrics ck ok).counters := by
  unfold emit_metrics bumpWriteFail
  split
  all_goals unfold countersLE
  all_goals simp

/-- C9: every checkpoint counter is monotonically non-decreasing under
every pipeline operation — routing an event, routing a DLQ record,
processing rotated files, the active-tail slice, flushing the checkpoint,
and emitting metrics — including the sink-write-failure and
checkpoint-write-failure paths (the `ok = false` cases). -/
theorem c9_counters_monotonic :
    (∀ (ck : CheckpointState) (ev : Event) (ok : Bool),
        countersLE ck.counters (write_event ck ev ok).counters) ∧
    (∀ (ck : CheckpointState) (ok : Bool),
        countersLE ck.counters (write_dlq ck ok).counters) ∧
    (∀ (ck : CheckpointState) (files : List RotFile) (year : Int) (oks : List Bool)
        (now : Int),
        countersLE ck.counters (process_rotated_files ck files year oks now).1.counters) ∧
    (∀ (ck : CheckpointState) (cur : Option Int) (content : List Nat)
        (checks : List (Option Int)) (oks : List Bool) (fuel : Nat) (year : Int),
        countersLE ck.counters
          (process_active_tail ck cur content checks oks fuel year).1.counters) ∧
    (∀ (ck : CheckpointState) (ok : Bool) (now : Int),
        countersLE ck.counters (flush_checkpoint ck ok now).1.counters) ∧
    (∀ (ck : CheckpointState) (ok : Bool),
        countersLE ck.counters (emit_metrics ck ok).counters) :=
  ⟨write_event_mono, write_dlq_mono,
    fun ck files year oks now => process_rotated_files_mono files ck year oks now,
    fun ck cur content checks oks fuel year =>
      process_active_tail_mono ck cur content checks oks fuel year,
    flush_checkpoint_mono, emit_metrics_mono⟩

/-! ### Checkpoint round-trip (C7) -/

theorem activeOfJson_roundtrip (a : ActivePointer) :
    activeOfJson (activeToJson a) = some a := by
  obtain ⟨p, i, o, l⟩ := a
  cases i <;> cases l <;>
    simp [activeToJson, activeOfJson, jget, lookupJ, asStr, asOptInt, asInt, asOptChars]

theorem countersOfJson_roundtrip (c : Counters) :
    countersOfJson (countersToJson c) = some c := by
  obtain ⟨a, b, c1, d, e, f, g⟩ := c
  simp [countersToJson, countersOfJson, jget, lookupJ, asInt]

theorem recOfJson_roundtrip (r : CompletedRecord) :
    recOfJson (recToJson r) = some r := by
  obtain ⟨k, p, i, s, m, c⟩ := r
  simp [recToJson, recOfJson, jget, lookupJ, asStr, asInt]

theorem recsOfJson_roundtrip (rs : List CompletedRecord) :
    recsOfJson (rs.map recToJson) = some rs := by
  induction rs with
  | nil => rfl
  | cons r rs ih => simp [recsOfJson, recOfJson_roundtrip, ih]

theorem checkpointOfJson_roundtrip (ck : CheckpointState) :
    checkpointOfJson (checkpointToJson ck) = some ck := by
  obtain ⟨sv, act, comps, cnt, upd⟩ := ck
  simp [checkpointToJson, checkpointOfJson, jget, lookupJ, asInt,
    activeOfJson_roundtrip, countersOfJson_roundtrip, recsOfJson_roundtrip]

/-- C7: `save_checkpoint` followed by `load_checkpoint` returns a state
equal to the saved one in every field — schema version, active pointer,
completed ledger, counters — except `updated_at`, which `save_checkpoint`
sets to the time of saving. -/
theorem c7_checkpoint_roundtrip (ck : CheckpointState) (now later : Int) :
    load_checkpoint (some (save_checkpoint ck now).2) later =
        some { ck with updated_at := now } ∧
    (save_checkpoint ck now).1 = { ck with updated_at := now } := by
  constructor
  · show checkpointOfJson (checkpointToJson { ck with updated_at := now }) = _
    rw [checkpointOfJson_roundtrip]
  · rfl

/-- C1: for every raw line and contextual year, `parse_fortigate_line`
returns exactly one of an event or a DLQ record — precisely one component
of the pair is present; totality of this Lean function is the image of
the source function never raising. -/
theorem c1_parse_exactly_one (raw : List Char) (year : Int) :
    ((parse_fortigate_line raw year).1 = none ∧
      (parse_fortigate_line raw year).2.isSome) ∨
    ((parse_fortigate_line raw year).1.isSome ∧
      (parse_fortigate_line raw year).2 = none) := by
  unfold parse_fortigate_line
  dsimp only
  repeat' split
  all_goals simp

/-- C3: the parser dead-letters with the reason of the first failing rule
in the fixed order — empty after trailing-newline trim gives
`empty_line`; otherwise binary garbage (NUL, or more than five control
characters) gives `non_text_or_binary`; otherwise an envelope mismatch
gives `syslog_header_parse_fail`; otherwise an unknown month abbreviation
gives `invalid_month`; each equality rules out every later reason when an
earlier rule fails. -/
theorem c3_dlq_reason_order (raw : List Char) (year : Int) :
    (pyRstripNl raw = [] →
      (parse_fortigate_line raw year).2 = some ⟨"empty_line", raw⟩) ∧
    (pyRstripNl raw ≠ [] → has_binary_garbage (pyRstripNl raw) = true →
      (parse_fortigate_line raw year).2 = some ⟨"non_text_or_binary", raw⟩) ∧
    (pyRstripNl raw ≠ [] → has_binary_garbage (pyRstripNl raw) = false →
      syslogMatch (pyRstripNl raw) = none →
      (parse_fortigate_line raw year).2 = some ⟨"syslog_header_parse_fail", raw⟩) ∧
    (∀ p : SyslogParts, pyRstripNl raw ≠ [] →
      has_binary_garbage (pyRstripNl raw) = false →
      syslogMatch (pyRstripNl raw) = some p → monthNum p.mon = none →
      (parse_fortigate_line raw year).2 = some ⟨"invalid_month", raw⟩) := by
  refine ⟨fun h1 => ?_, fun h1 h2 => ?_, fun h1 h2 h3 => ?_, fun p h1 h2 h3 h4 => ?_⟩ <;>
    unfold parse_fortigate_line <;> dsimp only <;> simp_all

/-- C3 witness: the four priority branches exercised on concrete lines. -/
theorem c3_dlq_reason_order_witness :
    (parse_fortigate_line "\n\n".data 2024).2 = some ⟨"empty_line", "\n\n".data⟩ ∧
    (parse_fortigate_line "Jan 5 03:04:05 h \u0000\n".data 2024).2 =
      some ⟨"non_text_or_binary", "Jan 5 03:04:05 h \u0000\n".data⟩ ∧
    (parse_fortigate_line "nonsense\n".data 2024).2 =
      some ⟨"syslog_header_parse_fail", "nonsense\n".data⟩ ∧
    (parse_fortigate_line "Xyz 5 03:04:05 h x=1\n".data 2024).2 =
      some ⟨"invalid_month", "Xyz 5 03:04:05 h x=1\n".data⟩ :=
  ⟨(c3_dlq_reason_order "\n\n".data 2024).1 (by decide),
   (c3_dlq_reason_order "Jan 5 03:04:05 h \u0000\n".data 2024).2.1 (by decide) (by decide),
   (c3_dlq_reason_order "nonsense\n".data 2024).2.2.1 (by decide) (by decide) (by decide),
   (c3_dlq_reason_order "Xyz 5 03:04:05 h x=1\n".data 2024).2.2.2
     ⟨"Xyz".data, "5".data, "03:04:05".data, "h".data, "x=1".data⟩
     (by decide) (by decide) (by decide) (by decide)⟩

theorem fromIso_naive (d t : List Char) (dt : PyDateTime) (h : fromIso d t = some dt) :
    dt.tzMinutes = none := by
  unfold fromIso at h
  repeat' split at h
  all_goals try dsimp only at h
  all_goals repeat' split at h
  all_goals try exact Option.noConfusion h
  all_goals rw [Option.some_inj] at h
  all_goals exact h ▸ rfl

/-- C5: with well-formed `date=2023-12-31 time=23:59:59 tz=+0530` keys
the resolved timestamp is `2023-12-31T23:59:59+05:30` whatever the
envelope fallback and contextual year are; in general, present,
non-empty and well-formed `date`/`time` keys take precedence over the
fallback — a `tz` normalizing to `[+-]HHMM` (within `datetime.timezone`
range) is applied as a fixed offset, and any other `tz` leaves the
timestamp offset-naive. -/
theorem c5_timestamp_override :
    (∀ (y : Int) (mon day : Nat) (tstr : List Char),
      parse_event_ts
        [("date".data, "2023-12-31".data), ("time".data, "23:59:59".data),
         ("tz".data, "+0530".data)] y mon day tstr =
        some "2023-12-31T23:59:59+05:30".data) ∧
    (∀ (kv : List (List Char × List Char)) (d t : List Char) (dt : PyDateTime)
        (y : Int) (mon day : Nat) (tstr : List Char),
      kvGet kv "date".data = some d → kvGet kv "time".data = some t →
      d ≠ [] → t ≠ [] → fromIso d t = some dt →
      (tzNormOf kv = none →
        parse_event_ts kv y mon day tstr = some (isoformat dt) ∧ dt.tzMinutes = none) ∧
      (∀ (neg : Bool) (hh mm : Nat), tzNormOf kv = some (neg, hh, mm) →
        hh * 60 + mm < 1440 →
        parse_event_ts kv y mon day tstr =
          some (isoformat { dt with tzMinutes := some (tzSigned neg hh mm) }))) := by
  constructor
  · intro y mon day tstr
    rfl
  · intro kv d t dt y mon day tstr hd ht hdne htne hfi
    have hne : ¬(d = [] ∨ t = []) := by simp [hdne, htne]
    constructor
    · intro htz
      refine ⟨?_, fromIso_naive d t dt hfi⟩
      unfold parse_event_ts explicitTsPath
      rw [hd, ht]
      dsimp only
      rw [if_neg hne, hfi, htz]
    · intro neg hh mm htz hlt
      unfold parse_event_ts explicitTsPath
      rw [hd, ht]
      dsimp only
      rw [if_neg hne, hfi, htz]
      dsimp only
      rw [if_pos hlt]

/-- C5 witness: the precedence part applied to a concrete two-key map
with no `tz`. -/
theorem c5_timestamp_override_witness :
    parse_event_ts [("date".data, "2023-12-31".data), ("time".data, "23:59:59".data)]
        2024 1 5 "03:04:05".data =
      some (isoformat ⟨2023, 12, 31, 23, 59, 59, none⟩) ∧
    (⟨2023, 12, 31, 23, 59, 59, none⟩ : PyDateTime).tzMinutes = none :=
  (c5_timestamp_override.2
      [("date".data, "2023-12-31".data), ("time".data, "23:59:59".data)]
      "2023-12-31".data "23:59:59".data ⟨2023, 12, 31, 23, 59, 59, none⟩ 2024 1 5
      "03:04:05".data rfl rfl (by decide) (by decide) (by decide)).1 rfl

/-! ### Offset bookkeeping (C6) -/

theorem charNatValid (c : Char) :
    c.toNat < 0xD800 ∨ (0xE000 ≤ c.toNat ∧ c.toNat < 0x110000) := by
  have h := c.valid
  unfold UInt32.isValidChar Nat.isValidChar at h
  unfold Char.toNat
  omega

theorem utf8DecodeGo_nil (fuel : Nat) : utf8DecodeGo fuel [] = [] := by
  cases fuel <;> rfl

theorem utf8DecodeGo_char (c : Char) (fuel : Nat) (rest : List Nat) :
    utf8DecodeGo (fuel + 1) (utf8CharBytes c ++ rest) = c :: utf8DecodeGo fuel rest := by
  have hv := charNatValid c
  unfold utf8CharBytes
  by_cases h1 : c.toNat < 0x80
  · rw [if_pos h1]
    simp only [List.cons_append, List.nil_append]
    simp only [utf8DecodeGo]
    rw [if_pos h1, Char.ofNat_toNat]
  · by_cases h2 : c.toNat < 0x800
    · rw [if_neg h1, if_pos h2]
      simp only [List.cons_append, List.nil_append]
      simp only [utf8DecodeGo]
      rw [if_neg (by omega), if_neg (by omega), if_pos (by omega)]
      have hcont : isCont (0x80 + c.toNat % 64) = true := by
        unfold isCont
        simp
        omega
      rw [if_pos hcont]
      have harg : (0xC0 + c.toNat / 64 - 0xC0) * 64 + (0x80 + c.toNat % 64 - 0x80) =
          c.toNat := by omega
      rw [harg, Char.ofNat_toNat]
    · by_cases h3 : c.toNat < 0x10000
      · rw [if_neg h1, if_neg h2, if_pos h3]
        simp only [List.cons_append, List.nil_append]
        simp only [utf8DecodeGo]
        rw [if_neg (by omega), if_neg (by omega), if_neg (by omega), if_pos (by omega)]
        have hval : valid3Second (0xE0 + c.toNat / 4096) (0x80 + c.toNat / 64 % 64)
            = true := by
          unfold valid3Second isCont
          by_cases hq0 : c.toNat / 4096 = 0
          · simp [hq0]
            omega
          · by_cases hq13 : c.toNat / 4096 = 13
            · have hb0 : (0xE0 + c.toNat / 4096 == 0xE0) = false := by
                simp
                omega
              have hb13 : (0xE0 + c.toNat / 4096 == 0xED) = true := by
                simp
                omega
              rw [hb0, hb13]
              simp
              omega
            · have hb0 : (0xE0 + c.toNat / 4096 == 0xE0) = false := by
                simp
                omega
              have hb13 : (0xE0 + c.toNat / 4096 == 0xED) = false := by
                simp
                omega
              rw [hb0, hb13]
              simp
              omega
        rw [if_pos hval]
        have hcont : isCont (0x80 + c.toNat % 64) = true := by
          unfold isCont
          simp
          omega
        rw [if_pos hcont]
        have harg : (0xE0 + c.toNat / 4096 - 0xE0) * 4096 +
            (0x80 + c.toNat / 64 % 64 - 0x80) * 64 + (0x80 + c.toNat % 64 - 0x80) =
            c.toNat := by omega
        rw [harg, Char.ofNat_toNat]
      · rw [if_neg h1, if_neg h2, if_neg h3]
        have h4 : c.toNat < 0x110000 := by omega
        simp only [List.cons_append, List.nil_append]
        simp only [utf8DecodeGo]
        rw [if_neg (by omega), if_neg (by omega), if_neg (by omega), if_neg (by omega),
          if_pos (by omega)]
        have hval : valid4Second (0xF0 + c.toNat / 262144) (0x80 + c.toNat / 4096 % 64)
            = true := by
          unfold valid4Second isCont
          by_cases hq0 : c.toNat / 262144 = 0
          · simp [hq0]
            omega
          · by_cases hq4 : c.toNat / 262144 = 4
            · have hb0 : (0xF0 + c.toNat / 262144 == 0xF0) = false := by
                simp
                omega
              have hb4 : (0xF0 + c.toNat / 262144 == 0xF4) = true := by
                simp
                omega
              rw [hb0, hb4]
              simp
              omega
            · have hb0 : (0xF0 + c.toNat / 262144 == 0xF0) = false := by
                simp
                omega
              have hb4 : (0xF0 + c.toNat / 262144 == 0xF4) = false := by
                simp
                omega
              rw [hb0, hb4]
              simp
              omega
        rw [if_pos hval]
        have hcont2 : isCont (0x80 + c.toNat / 64 % 64) = true := by
          unfold isCont
          simp
          omega
        have hcont3 : isCont (0x80 + c.toNat % 64) = true := by
          unfold isCont
          simp
          omega
        rw [if_pos hcont2, if_pos hcont3]
        have harg : (0xF0 + c.toNat / 262144 - 0xF0) * 262144 +
            (0x80 + c.toNat / 4096 % 64 - 0x80) * 4096 +
            (0x80 + c.toNat / 64 % 64 - 0x80) * 64 + (0x80 + c.toNat % 64 - 0x80) =
            c.toNat := by omega
        rw [harg, Char.ofNat_toNat]

theorem utf8Encode_cons (c : Char) (cs : List Char) :
    utf8Encode (c :: cs) = utf8CharBytes c ++ utf8Encode cs := rfl

theorem utf8CharBytes_ne_nil (c : Char) : (utf8CharBytes c).length ≠ 0 := by
  unfold utf8CharBytes
  by_cases h1 : c.toNat < 128
  · simp [h1]
  · by_cases h2 : c.toNat < 2048
    · simp [h1, h2]
    · by_cases h3 : c.toNat < 65536
      · simp [h1, h2, h3]
      · simp [h1, h2, h3]

theorem length_le_utf8Len (cs : List Char) : cs.length ≤ (utf8Encode cs).length := by
  induction cs with
  | nil => simp [utf8Encode]
  | cons c cs ih =>
    rw [utf8Encode_cons, List.length_append, List.length_cons]
    have := utf8CharBytes_ne_nil c
    omega

theorem utf8DecodeGo_encode (cs : List Char) (tail : List Nat) (fuel : Nat)
    (h : cs.length ≤ fuel) :
    utf8DecodeGo fuel (utf8Encode cs ++ tail) =
      cs ++ utf8DecodeGo (fuel - cs.length) tail := by
  induction cs generalizing fuel with
  | nil => simp [utf8Encode]
  | cons c cs ih =>
    match fuel, h with
    | fuel + 1, h =>
      rw [utf8Encode_cons, List.append_assoc, utf8DecodeGo_char c fuel _,
        ih _ (by simp at h; omega)]
      simp [Nat.succ_sub_succ]

theorem utf8DecodeReplace_encode (cs : List Char) :
    utf8DecodeReplace (utf8Encode cs) = cs := by
  unfold utf8DecodeReplace
  have h := length_le_utf8Len cs
  rw [← List.append_nil (utf8Encode cs), utf8DecodeGo_encode cs [] _ (by simp; omega),
    utf8DecodeGo_nil, List.append_nil]

theorem translateNL_id (cs : List Char) (h : '\r' ∉ cs) : translateNL cs = cs := by
  induction cs with
  | nil => rfl
  | cons c rest ih =>
    have hr : '\r' ∉ rest := fun m => h (List.mem_cons_of_mem _ m)
    rw [translateNL.eq_def]
    split
    all_goals try (rename_i heq; exact List.noConfusion heq)
    all_goals try (rename_i heq; injection heq with h1 h2; subst h1; subst h2)
    all_goals try exact absurd (List.mem_cons_self _ _) h
    all_goals rw [ih hr]

theorem pyLines_flatten (l : List Char) : (pyLines l).flatten = l := by
  induction l with
  | nil => rfl
  | cons c rest ih =>
    rw [pyLines.eq_def]
    split
    all_goals try (rename_i heq; exact List.noConfusion heq)
    all_goals try (rename_i heq; injection heq with h1 h2; subst h1; subst h2)
    all_goals try (simp [ih])
    all_goals cases hp : pyLines rest
    · rw [hp] at ih
      simp at ih
      simp [ih]
    · rw [hp] at ih
      simp at ih ⊢
      exact ih

theorem utf8Len_append (a b : List Char) :
    utf8Len (a ++ b) = utf8Len a + utf8Len b := by
  simp [utf8Len, utf8Encode, List.flatMap_append]

theorem withOffsets_getElem? (lines : List (List Char)) (start i : Nat) :
    (withOffsets lines start)[i]? =
      lines[i]?.map (fun l => (l, some (start + utf8Len ((lines.take i).flatten)))) := by
  induction lines generalizing start i with
  | nil => simp [withOffsets]
  | cons l ls ih =>
    cases i with
    | zero => simp [withOffsets, utf8Len, utf8Encode]
    | succ i =>
      simp only [withOffsets, List.getElem?_cons_succ, ih (start + utf8Len l) i,
        List.take_succ_cons, List.flatten_cons, utf8Len_append]
      congr 2
      funext x
      rw [Nat.add_assoc]

/-- C6 counterexample: on the 4-byte file `FF 0A 41 0A` (an invalid
UTF-8 byte, then a newline, then `A`, then a newline) the second line
starts at on-disk byte offset 2 — the first on-disk line is the two
bytes `FF 0A` — but `read_whole_file_lines` reports it at offset 4,
because the replacement character the invalid byte decodes to re-encodes
as three bytes.  The claimed exactness for arbitrary content therefore
fails. -/
theorem c6_offsets_counterexample :
    read_whole_file_lines false [0xFF, 0x0A, 0x41, 0x0A] =
      [([fffd, '\n'], some 0), (['A', '\n'], some 4)] ∧
    byteLines [0xFF, 0x0A, 0x41, 0x0A] = [[0xFF, 0x0A], [0x41, 0x0A]] ∧
    ((byteLines [0xFF, 0x0A, 0x41, 0x0A]).take 1).flatten.length = 2 := by
  decide

/-- C6 amended: for a plain file whose content is valid UTF-8 with no
carriage return, the reader yields exactly the Python text lines with
running offsets; the offset attached to line `i` is the byte length of
the encoding of the preceding lines — hence exact on disk, and 0 for the
first line — while for `.gz` files every offset is reported unknown.
On invalid UTF-8 (or `\r`) the offsets may drift from the on-disk byte
count (see the counterexample). -/
theorem c6_offsets_amended :
    (∀ cs : List Char, '\r' ∉ cs →
      read_whole_file_lines false (utf8Encode cs) = withOffsets (pyLines cs) 0) ∧
    (∀ (lines : List (List Char)) (i : Nat),
      (withOffsets lines 0)[i]? =
        lines[i]?.map (fun l => (l, some (utf8Len ((lines.take i).flatten))))) ∧
    (∀ l : List Char, (pyLines l).flatten = l) ∧
    (∀ (content : List Nat) (x : List Char × Option Nat),
      x ∈ read_whole_file_lines true content → x.2 = none) := by
  refine ⟨?_, ?_, pyLines_flatten, ?_⟩
  · intro cs h
    unfold read_whole_file_lines
    rw [utf8DecodeReplace_encode, translateNL_id cs h]
    simp
  · intro lines i
    simpa using withOffsets_getElem? lines 0 i
  · intro content x hx
    unfold read_whole_file_lines at hx
    simp at hx
    obtain ⟨l, _, rfl⟩ := hx
    rfl

/-- C6 witness: the amended theorem applied to the concrete two-line
valid-UTF-8 content `ab\ncd` and to a concrete compressed read. -/
theorem c6_offsets_amended_witness :
    read_whole_file_lines false (utf8Encode "ab\ncd".data) =
      withOffsets (pyLines "ab\ncd".data) 0 ∧
    ((['A'], (none : Option Nat)) : List Char × Option Nat).2 = none :=
  ⟨c6_offsets_amended.1 "ab\ncd".data (by decide),
   c6_offsets_amended.2.2.2 [0x41] (['A'], none) (by decide)⟩

/-! ### Rotation mid-tail (C2) -/

theorem routeLine_raw (ck : CheckpointState) (raw : List Char) (year : Int)
    (src : Source) (ok : Bool) : (routeLine ck raw year src ok).2.raw = raw := by
  unfold routeLine
  dsimp only
  split <;> rfl

theorem routeFold_trace (items : List (List Char × Option Nat)) (ck : CheckpointState)
    (path : String) (inode : Option Int) (year : Int) (oks : List Bool) :
    (routeFold ck items path inode year oks).2.map Routed.raw = items.map Prod.fst := by
  induction items generalizing ck oks with
  | nil => rfl
  | cons it rest ih =>
    obtain ⟨raw, off⟩ := it
    simp only [routeFold, List.map_cons]
    rw [routeLine_raw, ih]

theorem adjustPointer_reset (ck : CheckpointState) (cur : Int)
    (h : ck.active.inode ≠ some cur) :
    (adjustPointer ck cur).active.inode = some cur ∧
    (adjustPointer ck cur).active.offset = 0 := by
  unfold adjustPointer
  split_ifs with h1
  · exact ⟨rfl, rfl⟩
  · exact ⟨rfl, rfl⟩

theorem process_rotated_file_trace (ck : CheckpointState) (f : RotFile) (year : Int)
    (oks : List Bool) (now : Int)
    (h : is_completed ck f.path f.inode f.size f.mtime = false) :
    (process_rotated_file ck f year oks now).2.map Routed.raw =
      (read_whole_file_lines f.isGz f.content).map Prod.fst := by
  unfold process_rotated_file
  rw [if_neg (by simp [h])]
  exact routeFold_trace _ _ _ _ _ _

/-- Active content of the scenario file A: the single line `x`. -/
def c2ContentA : List Nat := utf8Encode "x\n".data

/-- Scenario start: the tailer follows identity 1 from offset 0. -/
def c2Ck0 : CheckpointState :=
  { default_checkpoint 0 with
      active := { path := ACTIVE_PATH, inode := some 1, offset := 0,
                  last_event_ts_seen := none } }

/-- Iteration 1: active-tail slice over A's content (identity stable). -/
def c2Step1 : CheckpointState × List Routed :=
  process_active_tail c2Ck0 (some 1) c2ContentA [some 1] [true] 10 2024

/-- A is rotated: the same bytes, now a rotated file; identity preserved. -/
def c2RotFile : RotFile :=
  ⟨"/data/fortigate/fortigate.log-20240101-000000", 1, 2, 5, false, c2ContentA⟩

/-- Iteration 2, phase 1: the rotated-file drain re-reads A from byte 0. -/
def c2Step2 : CheckpointState × List Routed :=
  process_rotated_files c2Step1.1 [c2RotFile] 2024 [true] 6

/-- Iteration 2, phase 2: the tail sees the new active identity 2. -/
def c2Step3 : CheckpointState × List Routed :=
  process_active_tail c2Step2.1 (some 2) [] [] [] 10 2024

/-- Number of routing decisions carrying a given raw line. -/
def routedCount (trace : List Routed) (raw : List Char) : Nat :=
  (trace.filter (fun r => r.raw = raw)).length

/-- C2 counterexample: in the concrete rotation scenario the single line
of file A is routed twice — once by the active tail before rotation
(attributed to inode 1 at offset 2) and once more by the rotated-file
drain — so "every line of file A is routed exactly once across the
active-tail phase and the subsequent rotated-file drain" is false, even
though the ActivePointer does end up at `{inode 2, offset 0}`. -/
theorem c2_rotation_counterexample :
    routedCount (c2Step1.2 ++ c2Step2.2 ++ c2Step3.2) "x\n".data = 2 ∧
    c2Step1.2 = [⟨⟨ACTIVE_PATH, some 1, some 2⟩, "x\n".data, false,
      some "syslog_header_parse_fail"⟩] ∧
    c2Step3.1.active.inode = some 2 ∧ c2Step3.1.active.offset = 0 := by
  decide

/-- C2 amended: when the active identity changes, the next tail entry
resets the ActivePointer to the new inode at offset 0, and no line of the
rotated file A is lost — the drain routes every one of its lines (each
line routed at least once).  But exactly-once fails: the drain re-reads A
from byte 0, so the concrete scenario routes the line already consumed by
the tail a second time (the counterexample's count of 2). -/
theorem c2_rotation_amended :
    (∀ (ck : CheckpointState) (cur : Int), ck.active.inode ≠ some cur →
      (adjustPointer ck cur).active.inode = some cur ∧
      (adjustPointer ck cur).active.offset = 0) ∧
    (∀ (ck : CheckpointState) (f : RotFile) (year : Int) (oks : List Bool) (now : Int),
      is_completed ck f.path f.inode f.size f.mtime = false →
      (process_rotated_file ck f year oks now).2.map Routed.raw =
        (read_whole_file_lines f.isGz f.content).map Prod.fst) ∧
    (routedCount (c2Step1.2 ++ c2Step2.2 ++ c2Step3.2) "x\n".data = 2 ∧
      c2Step3.1.active.inode = some 2 ∧ c2Step3.1.active.offset = 0) := by
  refine ⟨adjustPointer_reset, process_rotated_file_trace, by decide⟩

/-- C2 witness: the amended theorem's conditional parts applied to the
concrete scenario state and rotated file. -/
theorem c2_rotation_amended_witness :
    ((adjustPointer c2Ck0 2).active.inode = some 2 ∧
      (adjustPointer c2Ck0 2).active.offset = 0) ∧
    (process_rotated_file c2Ck0 c2RotFile 2024 [true] 6).2.map Routed.raw =
      (read_whole_file_lines c2RotFile.isGz c2RotFile.content).map Prod.fst :=
  ⟨c2_rotation_amended.1 c2Ck0 2 (by decide),
   c2_rotation_amended.2.1 c2Ck0 c2RotFile 2024 [true] 6 (by decide)⟩
